import Mathlib

/-!
Shallow embedding of the render-job lifecycle of the video-generation web
application: the Creatomate generation gateway
(`src/app/api/creatomate/generate/route.ts`), the webhook receiver
(`src/app/api/creatomate/webhook/route.ts`) and the client status poller
(`src/hooks/use-video-status.ts`).

Modelling conventions:
- The `videos` table is a `List Video`; supabase `.single()` is modelled by
  `selectSingle` (exactly one matching row, else `none`), `.update(..).eq(..)`
  by an id-filtered map.  Database calls are modelled failure-free.
- JavaScript objects used as metadata maps are association lists; the JS
  spread `{...m, k: v}` is `setKey`, which replaces an existing key in place
  or appends.  Keys whose value is `undefined` are dropped by
  `JSON.stringify` before reaching the database, so optional payload fields
  are `Option` and an absent field leaves the column untouched.
- JS truthiness on strings (`if (!id)`) is `truthyS`: both a missing field
  and the empty string are falsy.
- `JSON.parse` / `JSON.stringify` of the metadata blob are modelled by a
  character-level codec (`encodeObj` / `parseObjStr`) over string-to-string
  objects, the shape the system actually exchanges
  (`{ videoId, userId }`).  The codec escapes `"` and `\` exactly as the
  builtin does on such objects.
-/

/-- Internal job status enum of the `videos` table
(`draft | pending | processing | completed | failed`). -/
inductive VStatus
  | draft
  | pending
  | processing
  | completed
  | failed
deriving DecidableEq, Repr

/-- A JSON value as stored in the `meta` column or carried in a template
data object: a string, an integer, or a nested object. -/
inductive MVal
  | str : String → MVal
  | num : Int → MVal
  | dict : List (String × MVal) → MVal
deriving Repr

/-- The JSONB `meta` column: a JS object as an association list. -/
abbrev Meta : Type := List (String × MVal)

/-- Does the JS object have key `k`? -/
def hasKey (k : String) (m : Meta) : Bool :=
  m.any (fun e => e.1 = k)

/-- JS object spread `{...m, k: v}`: replace `k` in place if present,
otherwise append it. -/
def setKey (k : String) (v : MVal) (m : Meta) : Meta :=
  if hasKey k m then m.map (fun e => if e.1 = k then (k, v) else e)
  else m ++ [(k, v)]

/-- The net effect on a JS object of spreading `k: undefined` over it and
then serializing with `JSON.stringify`: the key `k` is absent from the
stored object, so a prior entry for `k` is deleted. -/
def removeKey (k : String) (m : Meta) : Meta :=
  m.filter (fun e => !(e.1 = k))

/-- Key lookup on a JS object (`m[k]`). -/
def lookupMeta (k : String) (m : Meta) : Option MVal :=
  (m.find? (fun e => decide (e.1 = k))).map (fun e => e.2)

/-- Every entry of the object with key `k` carries the value `v` (the
normal form reached after `setKey k v`). -/
def KeyAll (k : String) (v : MVal) (m : Meta) : Prop :=
  ∀ e ∈ m, e.1 = k → e = (k, v)

/-- A row of the `videos` table (the fields the routes read or write). -/
structure Video where
  id : String
  user_id : String
  property_id : Option String
  status : VStatus
  script_content : String
  video_url : Option String
  meta : Meta
deriving Repr

/-- Supabase `.select().eq('id', vid).single()`: the row if exactly one
matches, otherwise `none` (`.single()` errors on 0 or >1 rows and the
routes read `data`, which is then null). -/
def selectSingle (db : List Video) (vid : String) : Option Video :=
  match db.filter (fun r => decide (r.id = vid)) with
  | [r] => some r
  | _ => none

/-- JS truthiness of an optional string field: missing and `""` are falsy. -/
def truthyS : Option String → Bool
  | none => false
  | some s => !(s = "")

/-- JS truthiness of a JSON value (objects are always truthy). -/
def jsTruthy : MVal → Bool
  | MVal.str s => !(s = "")
  | MVal.num n => !(n = 0)
  | MVal.dict _ => true

/-- `templateData || {}`: a missing or falsy data object becomes the empty
object. -/
def orEmptyObj : Option MVal → MVal
  | none => MVal.dict []
  | some x => if jsTruthy x then x else MVal.dict []

/-- The webhook's provider-to-internal status mapping:
`status === 'succeeded' ? 'completed' : status === 'failed' ? 'failed' : 'pending'`. -/
def mapStatus (s : String) : VStatus :=
  if s = "succeeded" then VStatus.completed
  else if s = "failed" then VStatus.failed
  else VStatus.pending

/-- A metadata object exchanged with the provider: string keys to string
values (the gateway sends `{ videoId, userId }`). -/
abbrev JObj : Type := List (String × String)

/-- Key access on a payload metadata object (`m.videoId`). -/
def jLookup (k : String) (m : JObj) : Option String :=
  (m.find? (fun e => decide (e.1 = k))).map (fun e => e.2)

/-- Escape `"` and `\` as `JSON.stringify` does on the objects in play. -/
def escapeChars : List Char → List Char
  | [] => []
  | c :: rest =>
    if c = '"' ∨ c = '\\' then '\\' :: c :: escapeChars rest
    else c :: escapeChars rest

/-- One `"key":"value"` field of the JSON encoding. -/
def encodeField (k v : String) : List Char :=
  '"' :: (escapeChars k.data ++ '"' :: ':' :: '"' :: (escapeChars v.data ++ ['"']))

/-- The remaining fields of the JSON encoding, each preceded by a comma,
then the closing brace. -/
def encodeRestChars : JObj → List Char
  | [] => ['}']
  | (k, v) :: rest => ',' :: (encodeField k v ++ encodeRestChars rest)

/-- `JSON.stringify` of a string-to-string object. -/
def encodeObjChars : JObj → List Char
  | [] => ['{', '}']
  | (k, v) :: rest => '{' :: (encodeField k v ++ encodeRestChars rest)

/-- `JSON.stringify` of a metadata object, as a `String`. -/
def encodeObj (m : JObj) : String :=
  String.mk (encodeObjChars m)

/-- Parse a JSON string body up to its closing quote, returning the decoded
content and the rest of the input; a backslash makes the next character
literal. -/
def parseStrBody : List Char → Option (List Char × List Char)
  | [] => none
  | c :: rest =>
    if c = '\\' then
      match rest with
      | [] => none
      | c2 :: rest2 => (parseStrBody rest2).map (fun p => (c2 :: p.1, p.2))
    else if c = '"' then some ([], rest)
    else (parseStrBody rest).map (fun p => (c :: p.1, p.2))

/-- After a field's key has been read: expect `:"`, then parse the value
string. -/
def parseAfterKey (k : List Char) (cs2 : List Char) : Option (String × String × List Char) :=
  match cs2 with
  | ':' :: '"' :: cs3 =>
    match parseStrBody cs3 with
    | none => none
    | some (v, cs4) => some (String.mk k, String.mk v, cs4)
  | _ => none

/-- Parse one `"key":"value"` field, returning key, value, and the rest. -/
def parseField (cs : List Char) : Option (String × String × List Char) :=
  match cs with
  | '"' :: cs1 =>
    match parseStrBody cs1 with
    | none => none
    | some (k, cs2) => parseAfterKey k cs2
  | _ => none

/-- Parse a comma-separated field list terminated by `}` at end of input;
the fuel bounds the number of fields. -/
def parseFieldsAux : Nat → List Char → Option JObj
  | 0, _ => none
  | n + 1, cs =>
    match parseField cs with
    | none => none
    | some (k, v, rest) =>
      match rest with
      | ['}'] => some [(k, v)]
      | ',' :: rest2 => (parseFieldsAux n rest2).map (fun fs => (k, v) :: fs)
      | _ => none

/-- `JSON.parse` restricted to string-to-string objects: `none` models both
a parse error and a parsed non-object value (whose `.videoId` access yields
`undefined` just the same). -/
def parseObjChars : List Char → Option JObj
  | '{' :: '}' :: [] => some []
  | '{' :: cs => parseFieldsAux (cs.length + 1) cs
  | _ => none

/-- `JSON.parse` on a `String` payload metadata field. -/
def parseObjStr (s : String) : Option JObj :=
  parseObjChars s.data

/-- How the `metadata` field arrives in a webhook payload: a structured
object, a string, or absent. -/
inductive MetaField
  | obj : JObj → MetaField
  | str : String → MetaField
  | absent
deriving DecidableEq, Repr

/-- The webhook request body `{ id, status, url, metadata }`. -/
structure WebhookPayload where
  id : Option String
  status : Option String
  url : Option String
  metadata : MetaField
deriving DecidableEq, Repr

/-- Response body of a route: the webhook acknowledgment `{received:true}`,
the gateway success `{success:true, videoId}`, or `{error: msg}`. -/
inductive RespBody
  | received
  | okVideo : String → RespBody
  | err : String → RespBody
deriving DecidableEq, Repr

/-- An HTTP response: status code and JSON body. -/
structure HttpResp where
  code : Nat
  body : RespBody
deriving DecidableEq, Repr

namespace CreatomateWebhook

/-- The webhook's metadata normalisation: a string is run through
`JSON.parse` (keeping the raw value on failure, whose `.videoId` is then
`undefined`); an object is used as is. -/
def parsedMetadata : MetaField → Option JObj
  | MetaField.obj m => some m
  | MetaField.str s => parseObjStr s
  | MetaField.absent => none

/-- `parsedMetadata?.videoId`. -/
def videoIdOf (pm : Option JObj) : Option String :=
  match pm with
  | some m => jLookup "videoId" m
  | none => none

/-- The meta merge `{...currentVideo.meta, creatomate_id: id, render_url:
url, last_webhook_status: status}`.  When the payload carries no url the
spread still writes `render_url: undefined`, which overrides any prior
`render_url` entry and is then dropped by `JSON.stringify` — so a prior
`render_url` key is deleted, not preserved. -/
def mergeMeta (m : Meta) (i : String) (url : Option String) (st : String) : Meta :=
  let m1 := setKey "creatomate_id" (MVal.str i) m
  let m2 := match url with
    | some u => setKey "render_url" (MVal.str u) m1
    | none => removeKey "render_url" m1
  setKey "last_webhook_status" (MVal.str st) m2

/-- The `updateData` written to a correlated row: the remapped status, the
result url (left untouched when the payload has none), and — when the
prior row was fetched — the merged meta. -/
def updRow (p : WebhookPayload) (cv : Option Video) (r : Video) : Video :=
  { r with
    status := mapStatus (p.status.getD ""),
    video_url := match p.url with
      | some u => some u
      | none => r.video_url,
    meta := match cv with
      | some c => mergeMeta c.meta (p.id.getD "") p.url (p.status.getD "")
      | none => r.meta }

/-- The webhook receiver `POST` of
`src/app/api/creatomate/webhook/route.ts`: validate `id`/`status`,
normalise `metadata`, and if a truthy internal `videoId` is present update
the correlated row (status remapped, url, merged meta); otherwise only log
and acknowledge. -/
def POST (db : List Video) (p : WebhookPayload) : List Video × HttpResp :=
  if !(truthyS p.id) || !(truthyS p.status) then
    (db, ⟨400, RespBody.err "Invalid payload"⟩)
  else
    match videoIdOf (parsedMetadata p.metadata) with
    | some v =>
      if v = "" then (db, ⟨200, RespBody.received⟩)
      else
        let cv := selectSingle db v
        let db2 := db.map (fun r => if r.id = v then updRow p cv r else r)
        (db2, ⟨200, RespBody.received⟩)
    | none => (db, ⟨200, RespBody.received⟩)

end CreatomateWebhook

/-- Local state of the `useVideoStatus` hook. -/
structure PollerState where
  video : Option Video
  status : VStatus
deriving Repr

namespace UseVideoStatus

/-- One `fetchStatus` tick of `src/hooks/use-video-status.ts`: a plain
`select` of the row followed by local `setState`; the database is passed
through untouched because the hook performs no write. -/
def tick (db : List Video) (videoId : String) (ps : PollerState) : List Video × PollerState :=
  if videoId = "" then (db, ps)
  else
    match selectSingle db videoId with
    | some data => (db, { video := some data, status := data.status })
    | none => (db, ps)

end UseVideoStatus

/-- The parsed render object of a provider response body
(`render.id`, `render.url`, `render.status`). -/
structure Render where
  rid : Option String
  url : Option String
  rstatus : Option String
deriving DecidableEq, Repr

/-- A parsed provider HTTP response body: the `error` field read on non-ok
responses, and the render object (`Array.isArray(result) ? result[0] :
result`, `none` for an empty array) read on success. -/
structure RBody where
  errMsg : Option String
  render : Option Render
deriving DecidableEq, Repr

/-- Outcome of one `fetch` to the provider: a thrown transport error, or an
HTTP response with a status code and parsed body. -/
inductive Outcome
  | transportFail : String → Outcome
  | httpResp : Nat → RBody → Outcome
deriving DecidableEq, Repr

/-- `response.ok`: status in the inclusive range 200–299. -/
def respOk (st : Nat) : Bool :=
  decide (200 ≤ st) && decide (st ≤ 299)

/-- JS `result.error || default`: the `error` field when present and
truthy, else the fallback message. -/
def jsErrOr (errMsg : Option String) (d : String) : String :=
  match errMsg with
  | some e => if e = "" then d else e
  | none => d

namespace CreatomateGenerate

/-- State of the retry loop: the last assigned `response`, the recorded
`lastError`, the number of fetch attempts made, and the delays awaited
before retries, in order. -/
structure RetryState where
  response : Option (Nat × RBody)
  lastError : Option String
  attempts : Nat
  delays : List Nat
deriving DecidableEq, Repr

/-- The backoff before attempt `i > 0`: `500 * Math.pow(2, i - 1)` ms. -/
def delayFor (i : Nat) : Nat :=
  500 * 2 ^ (i - 1)

/-- One iteration of the retry loop body: await the backoff when `i > 0`,
fetch, break on ok, throw-and-catch the provider message on a non-ok
status below 500 (recording it as `lastError`), fall through on 5xx. The
`Bool` is the `break`. -/
def runAttempt (env : Nat → Outcome) (i : Nat) (s : RetryState) : RetryState × Bool :=
  let s := if i > 0 then { s with delays := s.delays ++ [delayFor i] } else s
  let s := { s with attempts := s.attempts + 1 }
  match env i with
  | Outcome.transportFail msg => ({ s with lastError := some msg }, false)
  | Outcome.httpResp st b =>
    let s := { s with response := some (st, b) }
    if respOk st then (s, true)
    else if st < 500 then
      let m := jsErrOr b.errMsg ("Request failed with status " ++ toString st)
      ({ s with lastError := some m }, false)
    else (s, false)

/-- The `for (let i = 0; i < maxRetries; i++)` loop, by remaining fuel. -/
def goLoop (env : Nat → Outcome) : Nat → Nat → RetryState → RetryState
  | 0, _, s => s
  | n + 1, i, s =>
    let p := runAttempt env i s
    if p.2 then p.1 else goLoop env n (i + 1) p.1

/-- `maxRetries`. -/
def maxRetries : Nat := 3

/-- Run the whole retry loop from the initial state. -/
def runLoop (env : Nat → Outcome) : RetryState :=
  goLoop env maxRetries 0 ⟨none, none, 0, []⟩

/-- After the loop: `if (!response || !response.ok) throw lastError || new
Error('Failed to connect to Creatomate API')`, else the ok response. -/
def gatewayFetch (env : Nat → Outcome) : Except String (Nat × RBody) :=
  let s := runLoop env
  match s.response with
  | some r =>
    if respOk r.1 then Except.ok r
    else Except.error (s.lastError.getD "Failed to connect to Creatomate API")
  | none => Except.error (s.lastError.getD "Failed to connect to Creatomate API")

/-- The `TemplateConfig` shape of the `TemplateManager` bundled in
`src/components/wizard/video-editor.tsx`: the Creatomate template id, a
display name, and the modification map whose string values may contain
placeholder paths between double braces. -/
structure TemplateConfig where
  id : String
  name : String
  modifications : List (String × MVal)
deriving Repr

/-- One step of the placeholder path lookup
`path.split and reduce with (obj or empty)[k]` of
`TemplateManager.applyTemplate`: property access on the accumulated value;
only objects yield properties, an absent accumulator behaves as the empty
object (string and numeric property access is not modelled and yields
`none`). -/
def pathStep (acc : Option MVal) (k : String) : Option MVal :=
  match acc with
  | some (MVal.dict kvs) => (kvs.find? (fun e => decide (e.1 = k))).map (fun e => e.2)
  | _ => none

/-- Resolve a dotted placeholder path against the data object. -/
def resolvePath (data : MVal) (ks : List String) : Option MVal :=
  ks.foldl pathStep (some data)

/-- JS string coercion of a resolved value spliced into the template. -/
def mvalToString : MVal → String
  | MVal.str s => s
  | MVal.num n => toString n
  | MVal.dict _ => "[object Object]"

/-- The spliced replacement: the resolved value coerced to a string, or
the empty string when the path resolves to nothing. -/
def renderPlaceholder (data : MVal) (content : List Char) : List Char :=
  match resolvePath data ((String.mk content).splitOn ".") with
  | some v => (mvalToString v).data
  | none => []

/-- Right after an opening double brace: the placeholder body is one or
more characters none of which is a closing brace, followed by a double
closing brace — the capture group of the substitution regex. -/
def grabPlaceholder (cs : List Char) : Option (List Char × List Char) :=
  let content := cs.takeWhile (fun c => !(c = '}'))
  if content.isEmpty then none
  else
    match cs.drop content.length with
    | '}' :: '}' :: rest => some (content, rest)
    | _ => none

/-- The global placeholder substitution pass of
`TemplateManager.applyTemplate` over a template string, with input-length
fuel (every step consumes at least one character); a position where the
pattern fails to match is copied through and scanning resumes at the next
character, as the global regex replace does. -/
def substAux (data : MVal) : Nat → List Char → List Char
  | 0, cs => cs
  | _ + 1, [] => []
  | n + 1, c :: rest =>
    if c = '{' then
      match rest with
      | '{' :: rest1 =>
        match grabPlaceholder rest1 with
        | some (content, rest2) =>
          renderPlaceholder data content ++ substAux data n rest2
        | none => c :: substAux data n rest
      | _ => c :: substAux data n rest
    else c :: substAux data n rest

/-- `TemplateManager.applyTemplate` (video-editor.tsx bundle): build a
fresh modification map, substituting placeholder paths in string values
with data lookups (an unresolved path becomes the empty string) and
copying non-string values verbatim. -/
def applyTemplate (template : TemplateConfig) (data : MVal) : List (String × MVal) :=
  template.modifications.map (fun e =>
    match e.2 with
    | MVal.str s => (e.1, MVal.str (String.mk (substAux data (s.data.length + 1) s.data)))
    | v => (e.1, v))

/-- The generation request body `{ modifications, propertyId, templateId,
data }`; `modifications` and `data` are JSON values (`data` may be
absent). -/
structure GenReq where
  modifications : MVal
  propertyId : Option String
  templateId : Option String
  templateData : Option MVal
deriving Repr

/-- Result of one run of the gateway: final table, HTTP response, number
of provider fetch attempts, and the backoff delays awaited. -/
structure GenOut where
  db : List Video
  resp : HttpResp
  attempts : Nat
  delays : List Nat
deriving Repr

/-- The `meta` column written by the initial insert:
`{ template: 'CREATOMATE_EDIT', modifications, templateId }` (the
`templateId` key is dropped by serialization when absent). -/
def insertMeta (req : GenReq) : Meta :=
  [("template", MVal.str "CREATOMATE_EDIT"), ("modifications", req.modifications)]
    ++ (match req.templateId with
        | some t => [("templateId", MVal.str t)]
        | none => [])

/-- The post-success record update: spread `creatomate_id` and
`render_url` over the inserted meta (an `undefined` field overrides and is
then dropped by serialization, deleting any prior key), set the status
from the synchronous `render.status`, and optimistically store
`render.url`. -/
def applyRenderUpdate (v : Video) (r : Render) : Video :=
  let m1 := match r.rid with
    | some i => setKey "creatomate_id" (MVal.str i) v.meta
    | none => removeKey "creatomate_id" v.meta
  let m2 := match r.url with
    | some u => setKey "render_url" (MVal.str u) m1
    | none => removeKey "render_url" m1
  { v with
    meta := m2,
    status := if r.rstatus = some "succeeded" then VStatus.completed else VStatus.pending,
    video_url := match r.url with
      | some u => some u
      | none => v.video_url }

/-- The job row the gateway inserts before calling the provider: owner,
property reference, `pending` status, a self-describing script line, and
the snapshot meta. -/
def newVideoRow (uid : String) (req : GenReq) (newId : String) : Video :=
  { id := newId
    user_id := uid
    property_id := req.propertyId
    status := VStatus.pending
    script_content := match req.templateId with
      | some t => "Template: " ++ t
      | none => "Creatomate Video Edit"
    video_url := none
    meta := insertMeta req }

/-- The generation gateway `POST` of
`src/app/api/creatomate/generate/route.ts`: require an authenticated user,
resolve the optional registry template through `TemplateManager.getTemplate`
(404 when unknown) and apply its mapping to the submitted data, require a
truthy API key, insert the job row in `pending`, run the bounded retry
loop against the provider, and on success merge the synchronous render
details into the row.  `templates` is the content of the on-disk template
directory that `getTemplate` reads (`none` for a missing or unparsable
file), `auth` the supabase user, `apiKey` the env
var CREATOMATE_API_KEY, `env` the provider, and `newId` the id supabase
assigns the inserted row. -/
def POST (templates : String → Option TemplateConfig) (db : List Video)
    (auth : Option String) (req : GenReq) (apiKey : Option String)
    (env : Nat → Outcome) (newId : String) : GenOut :=
  match auth with
  | none => ⟨db, ⟨401, RespBody.err "Unauthorized"⟩, 0, []⟩
  | some uid =>
    match req.templateId with
    | some t =>
      match templates t with
      | none => ⟨db, ⟨404, RespBody.err ("Template '" ++ t ++ "' not found")⟩, 0, []⟩
      | some template =>
        run uid
          { req with modifications :=
              MVal.dict (applyTemplate template (orEmptyObj req.templateData)) }
          db apiKey env newId
    | none => run uid req db apiKey env newId
where
  /-- The body of the route after authentication and template resolution. -/
  run (uid : String) (req : GenReq) (db : List Video) (apiKey : Option String)
      (env : Nat → Outcome) (newId : String) : GenOut :=
    if truthyS apiKey = false then
      ⟨db, ⟨500, RespBody.err "Missing CREATOMATE_API_KEY"⟩, 0, []⟩
    else
      let db1 := db ++ [newVideoRow uid req newId]
      let s := runLoop env
      match gatewayFetch env with
      | Except.error msg => ⟨db1, ⟨500, RespBody.err msg⟩, s.attempts, s.delays⟩
      | Except.ok (_, b) =>
        match b.render with
        | none => ⟨db1, ⟨200, RespBody.okVideo newId⟩, s.attempts, s.delays⟩
        | some r =>
          let db2 := db1.map (fun v => if v.id = newId then applyRenderUpdate v r else v)
          ⟨db2, ⟨200, RespBody.okVideo newId⟩, s.attempts, s.delays⟩

/-- A run reaches the provider call only when it requests no registry
template or the requested one resolves; the gateway 404s otherwise before
inserting or fetching anything. -/
def templateResolves (templates : String → Option TemplateConfig) (req : GenReq) : Bool :=
  match req.templateId with
  | none => true
  | some t => (templates t).isSome

end CreatomateGenerate

/-! Concrete instances used by counterexamples and witnesses. -/

/-- A job record already in the terminal state `completed`. -/
def vid1 : Video :=
  ⟨"V1", "u1", some "P1", VStatus.completed, "sc", some "https://cdn/old.mp4",
   [("template", MVal.str "CREATOMATE_EDIT")]⟩

/-- A correlated webhook delivery with a non-terminal provider status. -/
def pay1 : WebhookPayload :=
  ⟨some "r9", some "rendering", some "https://cdn/y.mp4",
   MetaField.obj [("videoId", "V1")]⟩

/-- A job record still in `pending`. -/
def vid2 : Video :=
  ⟨"V1", "u1", some "P1", VStatus.pending, "sc", none,
   [("template", MVal.str "CREATOMATE_EDIT")]⟩

/-- A correlated completion webhook delivery. -/
def pay2 : WebhookPayload :=
  ⟨some "r9", some "succeeded", some "https://cdn/x.mp4",
   MetaField.obj [("videoId", "V1")]⟩

/-- A webhook delivery carrying no internal job id in its metadata. -/
def pay3 : WebhookPayload :=
  ⟨some "r9", some "succeeded", some "https://cdn/x.mp4",
   MetaField.obj [("userId", "u1")]⟩

/-- A provider that answers every attempt with a 4xx carrying an error. -/
def env400 : Nat → Outcome :=
  fun _ => Outcome.httpResp 400 ⟨some "Invalid template", none⟩

/-- The render object of a synchronously succeeded creation response. -/
def render1 : Render :=
  ⟨some "r1", some "https://cdn/x.mp4", some "succeeded"⟩

/-- A provider that succeeds synchronously on the first attempt. -/
def envOk : Nat → Outcome :=
  fun _ => Outcome.httpResp 200 ⟨none, some render1⟩

/-- A provider that fails transport twice, then succeeds. -/
def envTransientOk : Nat → Outcome :=
  fun i =>
    if i < 2 then Outcome.transportFail "ECONNRESET"
    else Outcome.httpResp 200 ⟨none, some render1⟩

/-- A generation request with no registry template. -/
def reqSimple : CreatomateGenerate.GenReq :=
  ⟨MVal.num 0, some "P1", none, none⟩

/-- An empty template directory: `getTemplate` finds no file. -/
def noTemplates : String → Option CreatomateGenerate.TemplateConfig :=
  fun _ => none

/-- A record whose prior meta already carries a `render_url` key. -/
def vid3 : Video :=
  ⟨"V1", "u1", some "P1", VStatus.pending, "sc", some "https://cdn/old.mp4",
   [("template", MVal.str "CREATOMATE_EDIT"),
    ("render_url", MVal.str "https://cdn/old.mp4")]⟩

/-- A correlated webhook delivery carrying no result url. -/
def pay4 : WebhookPayload :=
  ⟨some "r9", some "failed", none, MetaField.obj [("videoId", "V1")]⟩

/-! # Theorems -/

/-- Claim C9: every unauthenticated request to the generation gateway gets
an immediate 401 with the message `Unauthorized`, no job record is
created, and no call is made to the external renderer. -/
theorem claim9_unauthenticated (templates : String → Option CreatomateGenerate.TemplateConfig)
    (db : List Video) (req : CreatomateGenerate.GenReq) (apiKey : Option String)
    (env : Nat → Outcome) (newId : String) :
    CreatomateGenerate.POST templates db none req apiKey env newId =
      ⟨db, ⟨401, RespBody.err "Unauthorized"⟩, 0, []⟩ := rfl

/-- Claim C10: a webhook payload whose `id` or `status` field is missing is
answered with a 400 `Invalid payload` error and no job record is
updated. -/
theorem claim10_missing_fields (db : List Video) (p : WebhookPayload)
    (h : p.id = none ∨ p.status = none) :
    CreatomateWebhook.POST db p = (db, ⟨400, RespBody.err "Invalid payload"⟩) := by
  rcases h with h | h <;> simp [CreatomateWebhook.POST, h, truthyS]

/-- Witness for C10 at a concrete payload with no `id`. -/
theorem claim10_witness :
    CreatomateWebhook.POST [vid2] ⟨none, some "succeeded", none, MetaField.absent⟩ =
      ([vid2], ⟨400, RespBody.err "Invalid payload"⟩) :=
  claim10_missing_fields [vid2] ⟨none, some "succeeded", none, MetaField.absent⟩ (Or.inl rfl)

/-- Claim C6: a webhook payload carrying an external id and a status but no
internal job id in its metadata never reaches the error path: the endpoint
acknowledges with 200 `{received:true}` and the table is untouched. -/
theorem claim6_no_correlation (db : List Video) (p : WebhookPayload)
    (h1 : truthyS p.id = true) (h2 : truthyS p.status = true)
    (h3 : CreatomateWebhook.videoIdOf (CreatomateWebhook.parsedMetadata p.metadata) = none ∨
          CreatomateWebhook.videoIdOf (CreatomateWebhook.parsedMetadata p.metadata) = some "") :
    CreatomateWebhook.POST db p = (db, ⟨200, RespBody.received⟩) := by
  rcases h3 with h3 | h3 <;> simp [CreatomateWebhook.POST, h1, h2, h3]

/-- Witness for C6 at a concrete uncorrelated payload. -/
theorem claim6_witness :
    CreatomateWebhook.POST [vid2] pay3 = ([vid2], ⟨200, RespBody.received⟩) :=
  claim6_no_correlation [vid2] pay3 (by decide) (by decide) (Or.inl (by decide))

/-- Counterexample to claim C1: the record `vid1` is in the terminal state
`completed`, yet a correlated webhook delivery with provider status
`rendering` moves it back to `pending` — the webhook path does transition
records out of terminal states. -/
theorem claim1_cex :
    vid1.status = VStatus.completed ∧
      (CreatomateWebhook.POST [vid1] pay1).1.map Video.status = [VStatus.pending] := by
  constructor <;> rfl

/-- Counterexample to claim C2: against a provider answering the first
attempt with a 4xx, the gateway does not stop after one attempt: it makes
3 attempts and waits the two backoff delays (the throw on a 4xx is caught
by the loop's own catch block and becomes a retry). -/
theorem claim2_cex :
    (CreatomateGenerate.POST noTemplates [] (some "u1") reqSimple (some "key")
        env400 "V1").attempts = 3 ∧
      (CreatomateGenerate.POST noTemplates [] (some "u1") reqSimple (some "key")
        env400 "V1").delays = [500, 1000] ∧
      (CreatomateGenerate.POST noTemplates [] (some "u1") reqSimple (some "key")
        env400 "V1").resp = ⟨500, RespBody.err "Invalid template"⟩ := by
  refine ⟨rfl, rfl, rfl⟩

/-- When the first attempt already returns an ok response, the loop breaks
at once: one attempt, no delay, no recorded error. -/
theorem runLoop_ok0 (env : Nat → Outcome) (st : Nat) (b : RBody)
    (h0 : env 0 = Outcome.httpResp st b) (hok : respOk st = true) :
    CreatomateGenerate.runLoop env = ⟨some (st, b), none, 1, []⟩ := by
  simp [CreatomateGenerate.runLoop, CreatomateGenerate.maxRetries,
    CreatomateGenerate.goLoop, CreatomateGenerate.runAttempt, h0, hok]

/-- One transport failure then an ok response: two attempts and the single
500 ms backoff. -/
theorem runLoop_ok1 (env : Nat → Outcome) (m0 : String) (st : Nat) (b : RBody)
    (h0 : env 0 = Outcome.transportFail m0)
    (h1 : env 1 = Outcome.httpResp st b) (hok : respOk st = true) :
    CreatomateGenerate.runLoop env = ⟨some (st, b), some m0, 2, [500]⟩ := by
  simp [CreatomateGenerate.runLoop, CreatomateGenerate.maxRetries,
    CreatomateGenerate.goLoop, CreatomateGenerate.runAttempt,
    CreatomateGenerate.delayFor, h0, h1, hok]

/-- Two transport failures then an ok response: three attempts and the
backoffs 500 ms and 1000 ms. -/
theorem runLoop_ok2 (env : Nat → Outcome) (m0 m1 : String) (st : Nat) (b : RBody)
    (h0 : env 0 = Outcome.transportFail m0)
    (h1 : env 1 = Outcome.transportFail m1)
    (h2 : env 2 = Outcome.httpResp st b) (hok : respOk st = true) :
    CreatomateGenerate.runLoop env = ⟨some (st, b), some m1, 3, [500, 1000]⟩ := by
  simp [CreatomateGenerate.runLoop, CreatomateGenerate.maxRetries,
    CreatomateGenerate.goLoop, CreatomateGenerate.runAttempt,
    CreatomateGenerate.delayFor, h0, h1, h2, hok]

/-- Against responses that are 4xx on every attempt, the loop runs all
three attempts with both backoffs, recording the last provider message. -/
theorem runLoop_all4xx (env : Nat → Outcome) (st : Nat → Nat) (b : Nat → RBody)
    (e : Nat → String)
    (hresp : ∀ i, i < 3 → env i = Outcome.httpResp (st i) (b i))
    (hst : ∀ i, i < 3 → 400 ≤ st i ∧ st i < 500)
    (herr : ∀ i, i < 3 → (b i).errMsg = some (e i))
    (hne : ∀ i, i < 3 → e i ≠ "") :
    CreatomateGenerate.runLoop env = ⟨some (st 2, b 2), some (e 2), 3, [500, 1000]⟩ := by
  have hnok : ∀ i, i < 3 → respOk (st i) = false := by
    intro i hi
    have := hst i hi
    simp [respOk]
    omega
  have hlt : ∀ i, i < 3 → st i < 500 := fun i hi => (hst i hi).2
  simp [CreatomateGenerate.runLoop, CreatomateGenerate.maxRetries,
    CreatomateGenerate.goLoop, CreatomateGenerate.runAttempt,
    CreatomateGenerate.delayFor, jsErrOr,
    hresp 0 (by omega), hresp 1 (by omega), hresp 2 (by omega),
    hnok 0 (by omega), hnok 1 (by omega), hnok 2 (by omega),
    hlt 0 (by omega), hlt 1 (by omega), hlt 2 (by omega),
    herr 0 (by omega), herr 1 (by omega), herr 2 (by omega),
    hne 0 (by omega), hne 1 (by omega), hne 2 (by omega)]

/-- After a loop that ended on an ok response, the post-loop check
succeeds with that response. -/
theorem gatewayFetch_ok (env : Nat → Outcome) (st : Nat) (b : RBody)
    (le : Option String) (a : Nat) (d : List Nat)
    (hrl : CreatomateGenerate.runLoop env = ⟨some (st, b), le, a, d⟩)
    (hok : respOk st = true) :
    CreatomateGenerate.gatewayFetch env = Except.ok (st, b) := by
  simp [CreatomateGenerate.gatewayFetch, hrl, hok]

/-- After a loop that ended on a non-ok response with a recorded error,
the post-loop check throws that error. -/
theorem gatewayFetch_err (env : Nat → Outcome) (st : Nat) (b : RBody)
    (m : String) (a : Nat) (d : List Nat)
    (hrl : CreatomateGenerate.runLoop env = ⟨some (st, b), some m, a, d⟩)
    (hnok : respOk st = false) :
    CreatomateGenerate.gatewayFetch env = Except.error m := by
  simp [CreatomateGenerate.gatewayFetch, hrl, hnok]

/-- Any authenticated run whose template resolves reaches the route body
after template resolution: the route is `run` on the original or the
template-modified request. -/
theorem POST_reaches_run (templates : String → Option CreatomateGenerate.TemplateConfig)
    (db : List Video) (uid : String) (req : CreatomateGenerate.GenReq)
    (apiKey : Option String) (env : Nat → Outcome) (newId : String)
    (hres : CreatomateGenerate.templateResolves templates req = true) :
    ∃ req2 : CreatomateGenerate.GenReq,
      CreatomateGenerate.POST templates db (some uid) req apiKey env newId =
        CreatomateGenerate.POST.run uid req2 db apiKey env newId := by
  cases hti : req.templateId with
  | none => exact ⟨req, by simp [CreatomateGenerate.POST, hti]⟩
  | some t =>
    cases htl : templates t with
    | none =>
      exfalso
      simp [CreatomateGenerate.templateResolves, hti, htl] at hres
    | some template =>
      refine ⟨{ req with modifications := MVal.dict (CreatomateGenerate.applyTemplate template (orEmptyObj req.templateData)) }, ?_⟩
      simp [CreatomateGenerate.POST, hti, htl]

/-- An authenticated run with a resolving template request and a truthy
API key reports exactly the loop's attempt count and delays, and its
response is determined by the post-loop outcome. -/
theorem POST_loop_stats (templates : String → Option CreatomateGenerate.TemplateConfig)
    (db : List Video) (uid : String) (req : CreatomateGenerate.GenReq)
    (apiKey : Option String) (env : Nat → Outcome) (newId : String)
    (hres : CreatomateGenerate.templateResolves templates req = true)
    (hkey : truthyS apiKey = true) :
    (CreatomateGenerate.POST templates db (some uid) req apiKey env newId).attempts =
        (CreatomateGenerate.runLoop env).attempts ∧
      (CreatomateGenerate.POST templates db (some uid) req apiKey env newId).delays =
        (CreatomateGenerate.runLoop env).delays ∧
      (CreatomateGenerate.POST templates db (some uid) req apiKey env newId).resp =
        (match CreatomateGenerate.gatewayFetch env with
          | Except.ok _ => ⟨200, RespBody.okVideo newId⟩
          | Except.error m => ⟨500, RespBody.err m⟩) := by
  obtain ⟨req2, hrun⟩ :=
    POST_reaches_run templates db uid req apiKey env newId hres
  rw [hrun]
  cases hgf : CreatomateGenerate.gatewayFetch env with
  | error m =>
    simp [CreatomateGenerate.POST.run, hkey, hgf]
  | ok r =>
    obtain ⟨st, b⟩ := r
    cases hbr : b.render <;>
      simp [CreatomateGenerate.POST.run, hkey, hgf, hbr]

/-- Claim C2 (amended): in every run of the generation gateway that
reaches the external renderer and is answered 4xx (with a nonempty error
message) on every attempt, the gateway makes all 3 attempts with the
backoff delays 500 ms and 1000 ms, and the call fails with a 500
surfacing the provider's error message from the last attempt. -/
theorem claim2_amended (templates : String → Option CreatomateGenerate.TemplateConfig)
    (db : List Video) (uid : String) (req : CreatomateGenerate.GenReq)
    (apiKey : Option String) (env : Nat → Outcome) (newId : String)
    (st : Nat → Nat) (b : Nat → RBody) (e : Nat → String)
    (hres : CreatomateGenerate.templateResolves templates req = true)
    (hkey : truthyS apiKey = true)
    (hresp : ∀ i, i < 3 → env i = Outcome.httpResp (st i) (b i))
    (hst : ∀ i, i < 3 → 400 ≤ st i ∧ st i < 500)
    (herr : ∀ i, i < 3 → (b i).errMsg = some (e i))
    (hne : ∀ i, i < 3 → e i ≠ "") :
    (CreatomateGenerate.POST templates db (some uid) req apiKey env newId).attempts = 3 ∧
      (CreatomateGenerate.POST templates db (some uid) req apiKey env newId).delays =
        [500, 1000] ∧
      (CreatomateGenerate.POST templates db (some uid) req apiKey env newId).resp =
        ⟨500, RespBody.err (e 2)⟩ := by
  have hrl := runLoop_all4xx env st b e hresp hst herr hne
  have hnok : respOk (st 2) = false := by
    have := hst 2 (by omega)
    simp [respOk]
    omega
  have hgf := gatewayFetch_err env (st 2) (b 2) (e 2) 3 [500, 1000] hrl hnok
  obtain ⟨ha, hd, hr⟩ := POST_loop_stats templates db uid req apiKey env newId hres hkey
  refine ⟨?_, ?_, ?_⟩
  · rw [ha, hrl]
  · rw [hd, hrl]
  · rw [hr, hgf]

/-- Witness for the amended C2 at the concrete all-4xx provider. -/
theorem claim2_witness :
    (CreatomateGenerate.POST noTemplates [] (some "u2") reqSimple (some "key")
        env400 "V2").attempts = 3 ∧
      (CreatomateGenerate.POST noTemplates [] (some "u2") reqSimple (some "key")
        env400 "V2").delays = [500, 1000] ∧
      (CreatomateGenerate.POST noTemplates [] (some "u2") reqSimple (some "key")
        env400 "V2").resp = ⟨500, RespBody.err "Invalid template"⟩ := by
  refine claim2_amended noTemplates [] "u2" reqSimple (some "key") env400 "V2"
    (fun _ => 400) (fun _ => ⟨some "Invalid template", none⟩)
    (fun _ => "Invalid template") rfl (by decide) ?_ ?_ ?_ ?_ <;> intro i hi
  · rfl
  · exact ⟨by norm_num, by norm_num⟩
  · rfl
  · show "Invalid template" ≠ ""
    decide

/-- Claim C3: in every run of the generation gateway that reaches the
external renderer and gets `f` transport failures followed by an ok
response within the retry budget of 3, the gateway returns the success
response and makes exactly `min(f+1, 3) = f+1` attempts, with strictly
increasing backoff delays before the retries. -/
theorem claim3_transient_then_success
    (templates : String → Option CreatomateGenerate.TemplateConfig)
    (db : List Video) (uid : String) (req : CreatomateGenerate.GenReq)
    (apiKey : Option String) (env : Nat → Outcome) (newId : String) (f : Nat)
    (msg : Nat → String) (st : Nat) (b : RBody)
    (hres : CreatomateGenerate.templateResolves templates req = true)
    (hkey : truthyS apiKey = true) (hf : f < 3)
    (hfail : ∀ j, j < f → env j = Outcome.transportFail (msg j))
    (hsucc : env f = Outcome.httpResp st b) (hok : respOk st = true) :
    (CreatomateGenerate.POST templates db (some uid) req apiKey env newId).resp =
        ⟨200, RespBody.okVideo newId⟩ ∧
      (CreatomateGenerate.POST templates db (some uid) req apiKey env newId).attempts =
        min (f + 1) CreatomateGenerate.maxRetries ∧
      (CreatomateGenerate.POST templates db (some uid) req apiKey env newId).attempts =
        f + 1 ∧
      (CreatomateGenerate.POST templates db (some uid) req apiKey env newId).delays =
        (List.range f).map (fun j => 500 * 2 ^ j) ∧
      List.Chain' (fun a c => a < c)
        (CreatomateGenerate.POST templates db (some uid) req apiKey env newId).delays := by
  obtain ⟨ha, hd, hr⟩ := POST_loop_stats templates db uid req apiKey env newId hres hkey
  interval_cases f
  · have hrl := runLoop_ok0 env st b hsucc hok
    have hgf := gatewayFetch_ok env st b none 1 [] hrl hok
    rw [hr, hgf, ha, hd, hrl]
    refine ⟨rfl, ?_, rfl, rfl, ?_⟩
    · simp [CreatomateGenerate.maxRetries, Nat.min_def]
    · show List.Chain' (fun a c => a < c) ([] : List Nat)
      exact List.chain'_nil
  · have hrl := runLoop_ok1 env (msg 0) st b (hfail 0 (by omega)) hsucc hok
    have hgf := gatewayFetch_ok env st b (some (msg 0)) 2 [500] hrl hok
    rw [hr, hgf, ha, hd, hrl]
    refine ⟨rfl, ?_, rfl, rfl, ?_⟩
    · simp [CreatomateGenerate.maxRetries, Nat.min_def]
    · show List.Chain' (fun a c => a < c) [500]
      simp
  · have hrl := runLoop_ok2 env (msg 0) (msg 1) st b (hfail 0 (by omega))
      (hfail 1 (by omega)) hsucc hok
    have hgf := gatewayFetch_ok env st b (some (msg 1)) 3 [500, 1000] hrl hok
    rw [hr, hgf, ha, hd, hrl]
    refine ⟨rfl, ?_, rfl, rfl, ?_⟩
    · simp [CreatomateGenerate.maxRetries, Nat.min_def]
    · show List.Chain' (fun a c => a < c) [500, 1000]
      norm_num [List.chain'_cons]

/-- Witness for C3 at a provider failing transport twice then succeeding. -/
theorem claim3_witness :
    (CreatomateGenerate.POST noTemplates [] (some "u1") reqSimple (some "key")
        envTransientOk "V1").resp = ⟨200, RespBody.okVideo "V1"⟩ ∧
      (CreatomateGenerate.POST noTemplates [] (some "u1") reqSimple (some "key")
        envTransientOk "V1").attempts = min (2 + 1) CreatomateGenerate.maxRetries ∧
      (CreatomateGenerate.POST noTemplates [] (some "u1") reqSimple (some "key")
        envTransientOk "V1").attempts = 2 + 1 ∧
      (CreatomateGenerate.POST noTemplates [] (some "u1") reqSimple (some "key")
        envTransientOk "V1").delays = (List.range 2).map (fun j => 500 * 2 ^ j) ∧
      List.Chain' (fun a c => a < c)
        (CreatomateGenerate.POST noTemplates [] (some "u1") reqSimple (some "key")
          envTransientOk "V1").delays := by
  refine claim3_transient_then_success noTemplates [] "u1" reqSimple (some "key")
    envTransientOk "V1" 2 (fun _ => "ECONNRESET") 200 ⟨none, some render1⟩
    rfl (by decide) (by omega) ?_ rfl (by decide)
  intro j hj
  interval_cases j <;> rfl

/-- Filtering by row id commutes with mapping an id-preserving function. -/
theorem filter_map_id_pres (f : Video → Video) (v : String) (l : List Video)
    (hf : ∀ x, (f x).id = x.id) :
    (l.map f).filter (fun x => decide (x.id = v)) =
      (l.filter (fun x => decide (x.id = v))).map f := by
  induction l with
  | nil => rfl
  | cons a t ih =>
    by_cases h : a.id = v <;>
      simp [List.filter_cons, hf a, h, ih]

/-- A `.single()` hit means the id filter returns exactly that row. -/
theorem selectSingle_eq_single (db : List Video) (v : String) (r : Video)
    (hsel : selectSingle db v = some r) :
    db.filter (fun x => decide (x.id = v)) = [r] := by
  unfold selectSingle at hsel
  rcases hq : db.filter (fun x => decide (x.id = v)) with _ | ⟨a, t⟩
  · rw [hq] at hsel
    exact absurd hsel (by simp)
  · rcases t with _ | ⟨c, t2⟩
    · rw [hq] at hsel
      simp only [Option.some.injEq] at hsel
      rw [hq, hsel]
    · rw [hq] at hsel
      exact absurd hsel (by simp)

/-- Mapping an id-preserving function over a table with a unique hit keeps
`.single()` working and applies the function to the hit. -/
theorem selectSingle_map (db : List Video) (f : Video → Video) (v : String)
    (hf : ∀ x, (f x).id = x.id) (r : Video)
    (hsel : selectSingle db v = some r) :
    selectSingle (db.map f) v = some (f r) := by
  have hfil := selectSingle_eq_single db v r hsel
  unfold selectSingle
  rw [filter_map_id_pres f v db hf, hfil]
  rfl

/-- A row untouched by the gateway's post-success update keeps its id. -/
theorem applyRenderUpdate_id (x : Video) (r : Render) :
    (CreatomateGenerate.applyRenderUpdate x r).id = x.id := rfl

/-- Claim C4: in every authenticated generation request whose run reaches
the provider and succeeds synchronously with a render object, the job
record ends `completed` with `video_url` equal to the reported URL when
the synchronous status is `succeeded`, and stays `pending` for every
other synchronous status (the URL column always mirrors `render.url`). -/
theorem claim4_sync_status (templates : String → Option CreatomateGenerate.TemplateConfig)
    (db : List Video) (uid : String) (req : CreatomateGenerate.GenReq)
    (apiKey : Option String) (env : Nat → Outcome) (newId : String)
    (st : Nat) (b : RBody) (r : Render)
    (hres : CreatomateGenerate.templateResolves templates req = true)
    (hkey : truthyS apiKey = true)
    (hgf : CreatomateGenerate.gatewayFetch env = Except.ok (st, b))
    (hrend : b.render = some r)
    (hfresh : ∀ x ∈ db, x.id ≠ newId) :
    ∃ v, selectSingle
        (CreatomateGenerate.POST templates db (some uid) req apiKey env newId).db
        newId = some v ∧
      v.video_url = r.url ∧
      (r.rstatus = some "succeeded" → v.status = VStatus.completed) ∧
      (r.rstatus ≠ some "succeeded" → v.status = VStatus.pending) := by
  obtain ⟨req2, hrun⟩ :=
    POST_reaches_run templates db uid req apiKey env newId hres
  rw [hrun]
  have hnvid : (CreatomateGenerate.newVideoRow uid req2 newId).id = newId := rfl
  have hdb : (CreatomateGenerate.POST.run uid req2 db apiKey env newId).db =
      (db ++ [CreatomateGenerate.newVideoRow uid req2 newId]).map
        (fun x : Video =>
          if x.id = newId then CreatomateGenerate.applyRenderUpdate x r else x) := by
    simp [CreatomateGenerate.POST.run, hkey, hgf, hrend]
  have hid : ∀ x : Video,
      ((fun x : Video =>
          if x.id = newId then CreatomateGenerate.applyRenderUpdate x r else x) x).id
        = x.id := by
    intro x
    by_cases h : x.id = newId <;> simp [h, applyRenderUpdate_id]
  have hsel1 : selectSingle (db ++ [CreatomateGenerate.newVideoRow uid req2 newId]) newId =
      some (CreatomateGenerate.newVideoRow uid req2 newId) := by
    unfold selectSingle
    have hnil : db.filter (fun x => decide (x.id = newId)) = [] := by
      rw [List.filter_eq_nil_iff]
      intro x hx
      simpa using hfresh x hx
    rw [List.filter_append, hnil]
    simp [hnvid]
  have hsel2 := selectSingle_map (db ++ [CreatomateGenerate.newVideoRow uid req2 newId])
    (fun x : Video => if x.id = newId then CreatomateGenerate.applyRenderUpdate x r else x)
    newId hid (CreatomateGenerate.newVideoRow uid req2 newId) hsel1
  refine ⟨CreatomateGenerate.applyRenderUpdate (CreatomateGenerate.newVideoRow uid req2 newId) r,
    ?_, ?_, ?_, ?_⟩
  · rw [hdb]
    simpa [hnvid] using hsel2
  · show (CreatomateGenerate.applyRenderUpdate
        (CreatomateGenerate.newVideoRow uid req2 newId) r).video_url = r.url
    cases hu : r.url <;>
      simp [CreatomateGenerate.applyRenderUpdate, CreatomateGenerate.newVideoRow, hu]
  · intro hs
    simp [CreatomateGenerate.applyRenderUpdate, hs]
  · intro hs
    simp [CreatomateGenerate.applyRenderUpdate, hs]

/-- Witness for C4 at a provider that synchronously reports `succeeded`
with a result URL. -/
theorem claim4_witness :
    ∃ v, selectSingle
        (CreatomateGenerate.POST noTemplates [] (some "u1") reqSimple (some "key")
          envOk "V1").db "V1" = some v ∧
      v.video_url = render1.url ∧
      (render1.rstatus = some "succeeded" → v.status = VStatus.completed) ∧
      (render1.rstatus ≠ some "succeeded" → v.status = VStatus.pending) := by
  refine claim4_sync_status noTemplates [] "u1" reqSimple (some "key") envOk "V1"
    200 ⟨none, some render1⟩ render1 rfl (by decide) ?_ rfl ?_
  · rfl
  · intro x hx
    simp at hx

/-- Replacing key `k` leaves the membership test for `k` unchanged on the
in-place branch of `setKey`. -/
theorem any_key_map_replace (k : String) (v : MVal) (m : Meta) :
    (m.map (fun e => if e.1 = k then (k, v) else e)).any (fun e => e.1 = k) =
      m.any (fun e => e.1 = k) := by
  induction m with
  | nil => rfl
  | cons a t ih => by_cases h : a.1 = k <;> simp [h, ih]

/-- Replacing key `q` leaves the membership test for a different key `k`
unchanged on the in-place branch of `setKey`. -/
theorem any_key_map_replace_ne (k q : String) (v : MVal) (m : Meta) (h : k ≠ q) :
    (m.map (fun e => if e.1 = q then (q, v) else e)).any (fun e => e.1 = k) =
      m.any (fun e => e.1 = k) := by
  induction m with
  | nil => rfl
  | cons a t ih =>
    by_cases ha : a.1 = q
    · simp [ha, Ne.symm h, ih]
    · simp [ha, ih]

/-- After `setKey k v` the key `k` is present. -/
theorem hasKey_setKey_self (k : String) (v : MVal) (m : Meta) :
    hasKey k (setKey k v m) = true := by
  by_cases h : hasKey k m
  · simp only [setKey, if_pos h]
    unfold hasKey at h ⊢
    rw [any_key_map_replace]
    exact h
  · simp only [setKey, if_neg h]
    simp [hasKey]

/-- `setKey q` does not change the presence of a different key `k`. -/
theorem hasKey_setKey_ne (k q : String) (v : MVal) (m : Meta) (h : k ≠ q) :
    hasKey k (setKey q v m) = hasKey k m := by
  by_cases hq : hasKey q m
  · simp only [setKey, if_pos hq]
    unfold hasKey
    exact any_key_map_replace_ne k q v m h
  · simp only [setKey, if_neg hq]
    simp [hasKey, Ne.symm h]

/-- `setKey` keeps any key that was already present. -/
theorem hasKey_setKey_mono (k q : String) (v : MVal) (m : Meta)
    (hh : hasKey k m = true) : hasKey k (setKey q v m) = true := by
  by_cases h : k = q
  · subst h
    exact hasKey_setKey_self k v m
  · rw [hasKey_setKey_ne k q v m h]
    exact hh

/-- After `setKey k v`, every entry with key `k` carries `v`. -/
theorem keyAll_setKey_self (k : String) (v : MVal) (m : Meta) :
    KeyAll k v (setKey k v m) := by
  intro e he hk
  by_cases h : hasKey k m = true
  · rw [setKey, if_pos h] at he
    rcases List.mem_map.1 he with ⟨a, _, rfl⟩
    by_cases h2 : a.1 = k
    · simp [h2]
    · rw [if_neg h2] at hk ⊢
      exact absurd hk h2
  · rw [setKey, if_neg h] at he
    rcases List.mem_append.1 he with he | he
    · exfalso
      apply h
      simp only [hasKey, List.any_eq_true]
      exact ⟨e, he, by simp [hk]⟩
    · simpa using he

/-- `setKey q` preserves the `KeyAll` normal form of a different key. -/
theorem keyAll_setKey_ne (k q : String) (v w : MVal) (m : Meta) (h : q ≠ k)
    (hka : KeyAll k v m) : KeyAll k v (setKey q w m) := by
  intro e he hk
  unfold setKey at he
  split at he
  · rcases List.mem_map.1 he with ⟨a, ha, rfl⟩
    by_cases h2 : a.1 = q
    · rw [if_pos h2] at hk ⊢
      exact absurd hk h
    · rw [if_neg h2] at hk ⊢
      exact hka a ha hk
  · rcases List.mem_append.1 he with he | he
    · exact hka e he hk
    · simp only [List.mem_singleton] at he
      subst he
      exact absurd hk h

/-- In-place replacement is the identity on an object already in `KeyAll`
normal form. -/
theorem map_replace_eq_self (k : String) (v : MVal) :
    ∀ m : Meta, KeyAll k v m →
      m.map (fun e => if e.1 = k then (k, v) else e) = m := by
  intro m
  induction m with
  | nil => intro _; rfl
  | cons a t ih =>
    intro hka
    have ha : (if a.1 = k then (k, v) else a) = a := by
      by_cases h2 : a.1 = k
      · rw [if_pos h2]
        exact (hka a (by simp) h2).symm
      · rw [if_neg h2]
    have ht := ih (fun e he hk => hka e (by simp [he]) hk)
    simp only [List.map_cons, ha, ht]

/-- `setKey k v` is the identity when `k` is present and already
normalised to `v`. -/
theorem setKey_eq_self (k : String) (v : MVal) (m : Meta)
    (hh : hasKey k m = true) (hka : KeyAll k v m) : setKey k v m = m := by
  unfold setKey
  rw [if_pos hh]
  exact map_replace_eq_self k v m hka

/-- After `removeKey k` the key `k` is gone. -/
theorem hasKey_removeKey_self (k : String) (m : Meta) :
    hasKey k (removeKey k m) = false := by
  induction m with
  | nil => rfl
  | cons a t ih =>
    by_cases h : a.1 = k
    · rw [show removeKey k (a :: t) = removeKey k t by
        simp [removeKey, List.filter_cons, h]]
      exact ih
    · simp [removeKey, hasKey, List.filter_cons, h, ih]

/-- `removeKey q` does not change the presence of a different key `k`. -/
theorem hasKey_removeKey_ne (k q : String) (m : Meta) (h : k ≠ q) :
    hasKey k (removeKey q m) = hasKey k m := by
  induction m with
  | nil => rfl
  | cons a t ih =>
    by_cases ha : a.1 = q
    · simp [removeKey, hasKey, List.filter_cons, ha, Ne.symm h] at ih ⊢
      exact ih
    · simp [removeKey, hasKey, List.filter_cons, ha] at ih ⊢
      rw [ih]

/-- `removeKey` preserves the `KeyAll` normal form of any key. -/
theorem keyAll_removeKey (k q : String) (v : MVal) (m : Meta)
    (hka : KeyAll k v m) : KeyAll k v (removeKey q m) := by
  intro e he hk
  exact hka e (List.mem_of_mem_filter he) hk

/-- `removeKey q` is the identity when `q` is absent. -/
theorem removeKey_eq_self_of (q : String) (m : Meta)
    (h : hasKey q m = false) : removeKey q m = m := by
  induction m with
  | nil => rfl
  | cons a t ih =>
    have h1 : ¬ (a.1 = q) := by
      intro hh
      simp [hasKey, hh] at h
    have h2 : hasKey q t = false := by
      simp [hasKey, List.any_cons] at h ⊢
      exact h.2
    simp [removeKey, List.filter_cons, h1]
    simpa [removeKey] using ih h2

/-- `removeKey q` does not change the lookup of a different key `k`. -/
theorem lookupMeta_removeKey_ne (k q : String) (m : Meta) (h : k ≠ q) :
    lookupMeta k (removeKey q m) = lookupMeta k m := by
  induction m with
  | nil => rfl
  | cons a t ih =>
    by_cases ha : a.1 = q
    · have hskip : lookupMeta k (a :: t) = lookupMeta k t := by
        unfold lookupMeta
        rw [List.find?_cons_of_neg _ (by simp [ha, Ne.symm h])]
      rw [show removeKey q (a :: t) = removeKey q t by
        simp [removeKey, List.filter_cons, ha]]
      rw [ih, hskip]
    · by_cases hk2 : a.1 = k
      · rw [show removeKey q (a :: t) = a :: removeKey q t by
          simp [removeKey, List.filter_cons, ha]]
        unfold lookupMeta
        rw [List.find?_cons_of_pos _ (by simp [hk2]),
          List.find?_cons_of_pos _ (by simp [hk2])]
      · rw [show removeKey q (a :: t) = a :: removeKey q t by
          simp [removeKey, List.filter_cons, ha]]
        unfold lookupMeta at ih ⊢
        rw [List.find?_cons_of_neg _ (by simp [hk2]),
          List.find?_cons_of_neg _ (by simp [hk2])]
        exact ih

/-- The webhook's meta merge is idempotent: merging the same payload
fields twice equals merging them once. -/
theorem mergeMeta_idem (m : Meta) (i : String) (url : Option String) (st : String) :
    CreatomateWebhook.mergeMeta (CreatomateWebhook.mergeMeta m i url st) i url st =
      CreatomateWebhook.mergeMeta m i url st := by
  have hne12 : ("creatomate_id" : String) ≠ "render_url" := by decide
  have hne13 : ("creatomate_id" : String) ≠ "last_webhook_status" := by decide
  have hne23 : ("render_url" : String) ≠ "last_webhook_status" := by decide
  cases url with
  | none =>
    show setKey "last_webhook_status" (MVal.str st)
        (removeKey "render_url"
          (setKey "creatomate_id" (MVal.str i)
            (setKey "last_webhook_status" (MVal.str st)
              (removeKey "render_url" (setKey "creatomate_id" (MVal.str i) m))))) =
      setKey "last_webhook_status" (MVal.str st)
        (removeKey "render_url" (setKey "creatomate_id" (MVal.str i) m))
    have hA : setKey "creatomate_id" (MVal.str i)
        (setKey "last_webhook_status" (MVal.str st)
          (removeKey "render_url" (setKey "creatomate_id" (MVal.str i) m))) =
        setKey "last_webhook_status" (MVal.str st)
          (removeKey "render_url" (setKey "creatomate_id" (MVal.str i) m)) := by
      apply setKey_eq_self
      · rw [hasKey_setKey_ne _ _ _ _ hne13, hasKey_removeKey_ne _ _ _ hne12]
        exact hasKey_setKey_self _ _ _
      · exact keyAll_setKey_ne _ _ _ _ _ (Ne.symm hne13)
          (keyAll_removeKey _ _ _ _ (keyAll_setKey_self _ _ _))
    have hB : removeKey "render_url"
        (setKey "last_webhook_status" (MVal.str st)
          (removeKey "render_url" (setKey "creatomate_id" (MVal.str i) m))) =
        setKey "last_webhook_status" (MVal.str st)
          (removeKey "render_url" (setKey "creatomate_id" (MVal.str i) m)) := by
      apply removeKey_eq_self_of
      rw [hasKey_setKey_ne _ _ _ _ hne23]
      exact hasKey_removeKey_self _ _
    rw [hA, hB]
    exact setKey_eq_self _ _ _ (hasKey_setKey_self _ _ _) (keyAll_setKey_self _ _ _)
  | some u =>
    show setKey "last_webhook_status" (MVal.str st)
        (setKey "render_url" (MVal.str u)
          (setKey "creatomate_id" (MVal.str i)
            (setKey "last_webhook_status" (MVal.str st)
              (setKey "render_url" (MVal.str u)
                (setKey "creatomate_id" (MVal.str i) m))))) =
      setKey "last_webhook_status" (MVal.str st)
        (setKey "render_url" (MVal.str u) (setKey "creatomate_id" (MVal.str i) m))
    have hA : setKey "creatomate_id" (MVal.str i)
        (setKey "last_webhook_status" (MVal.str st)
          (setKey "render_url" (MVal.str u)
            (setKey "creatomate_id" (MVal.str i) m))) =
        setKey "last_webhook_status" (MVal.str st)
          (setKey "render_url" (MVal.str u)
            (setKey "creatomate_id" (MVal.str i) m)) := by
      apply setKey_eq_self
      · rw [hasKey_setKey_ne _ _ _ _ hne13, hasKey_setKey_ne _ _ _ _ hne12]
        exact hasKey_setKey_self _ _ _
      · exact keyAll_setKey_ne _ _ _ _ _ (Ne.symm hne13)
          (keyAll_setKey_ne _ _ _ _ _ (Ne.symm hne12) (keyAll_setKey_self _ _ _))
    have hB : setKey "render_url" (MVal.str u)
        (setKey "last_webhook_status" (MVal.str st)
          (setKey "render_url" (MVal.str u)
            (setKey "creatomate_id" (MVal.str i) m))) =
        setKey "last_webhook_status" (MVal.str st)
          (setKey "render_url" (MVal.str u)
            (setKey "creatomate_id" (MVal.str i) m)) := by
      apply setKey_eq_self
      · rw [hasKey_setKey_ne _ _ _ _ hne23]
        exact hasKey_setKey_self _ _ _
      · exact keyAll_setKey_ne _ _ _ _ _ (Ne.symm hne23) (keyAll_setKey_self _ _ _)
    rw [hA, hB]
    exact setKey_eq_self _ _ _ (hasKey_setKey_self _ _ _) (keyAll_setKey_self _ _ _)

/-- `updRow` never changes the row id. -/
theorem updRow_id (p : WebhookPayload) (cv : Option Video) (x : Video) :
    (CreatomateWebhook.updRow p cv x).id = x.id := rfl

/-- `updRow` always writes the remapped payload status. -/
theorem updRow_status_eq (p : WebhookPayload) (cv : Option Video) (x : Video) :
    (CreatomateWebhook.updRow p cv x).status = mapStatus (p.status.getD "") := rfl

/-- Applying the correlated update a second time, against the already
updated row, changes nothing. -/
theorem updRow_idem (p : WebhookPayload) (c x : Video) :
    CreatomateWebhook.updRow p (some (CreatomateWebhook.updRow p (some c) x))
        (CreatomateWebhook.updRow p (some c) x) =
      CreatomateWebhook.updRow p (some c) x := by
  unfold CreatomateWebhook.updRow
  cases hu : p.url with
  | none => simp [mergeMeta_idem]
  | some u => simp [mergeMeta_idem]

/-- Mapping functions that agree on the list's elements give the same
image. -/
theorem map_congr_mem (l : List Video) (f g : Video → Video)
    (h : ∀ x ∈ l, f x = g x) : l.map f = l.map g := by
  induction l with
  | nil => rfl
  | cons a t ih =>
    simp only [List.map_cons, h a (by simp),
      ih (fun x hx => h x (by simp [hx]))]

/-- A validated, correlated webhook delivery is exactly the id-filtered
row update plus the `{received:true}` acknowledgment. -/
theorem POST_correlated (db : List Video) (p : WebhookPayload) (v : String)
    (h1 : truthyS p.id = true) (h2 : truthyS p.status = true)
    (h3 : CreatomateWebhook.videoIdOf (CreatomateWebhook.parsedMetadata p.metadata) = some v)
    (h4 : v ≠ "") :
    CreatomateWebhook.POST db p =
      (db.map (fun x : Video =>
          if x.id = v then CreatomateWebhook.updRow p (selectSingle db v) x else x),
        ⟨200, RespBody.received⟩) := by
  simp [CreatomateWebhook.POST, h1, h2, h3, h4]

/-- Claim C5: the webhook receiver is idempotent — delivering the same
correlated payload twice leaves the table (status, `video_url`, merged
meta) and the response exactly as after one delivery. -/
theorem claim5_idempotent (db : List Video) (p : WebhookPayload) (v : String) (r : Video)
    (h1 : truthyS p.id = true) (h2 : truthyS p.status = true)
    (h3 : CreatomateWebhook.videoIdOf (CreatomateWebhook.parsedMetadata p.metadata) = some v)
    (h4 : v ≠ "") (h5 : selectSingle db v = some r) :
    CreatomateWebhook.POST (CreatomateWebhook.POST db p).1 p =
      CreatomateWebhook.POST db p := by
  have hfil := selectSingle_eq_single db v r h5
  have hrid : r.id = v := by
    have hr : r ∈ db.filter (fun x => decide (x.id = v)) := by
      rw [hfil]
      exact List.mem_singleton_self r
    simpa using (List.mem_filter.1 hr).2
  have h1st := POST_correlated db p v h1 h2 h3 h4
  rw [h5] at h1st
  set F : Video → Video :=
    fun x => if x.id = v then CreatomateWebhook.updRow p (some r) x else x with hF
  have hidF : ∀ x : Video, (F x).id = x.id := by
    intro x
    rw [hF]
    by_cases h : x.id = v <;> simp [h, updRow_id]
  have hFr : F r = CreatomateWebhook.updRow p (some r) r := by
    rw [hF]
    simp [hrid]
  have hsel2 : selectSingle (db.map F) v =
      some (CreatomateWebhook.updRow p (some r) r) := by
    have := selectSingle_map db F v hidF r h5
    rw [hFr] at this
    exact this
  have h2nd := POST_correlated (db.map F) p v h1 h2 h3 h4
  rw [hsel2] at h2nd
  set G : Video → Video :=
    fun x => if x.id = v
      then CreatomateWebhook.updRow p (some (CreatomateWebhook.updRow p (some r) r)) x
      else x with hG
  calc CreatomateWebhook.POST (CreatomateWebhook.POST db p).1 p
      = CreatomateWebhook.POST (db.map F) p := by rw [h1st]
    _ = ((db.map F).map G, ⟨200, RespBody.received⟩) := h2nd
    _ = (db.map F, ⟨200, RespBody.received⟩) := by
        congr 1
        rw [List.map_map]
        apply map_congr_mem
        intro x _
        show G (F x) = F x
        by_cases hxv : x.id = v
        · have hxr : x = r := by
            have hxf : x ∈ db.filter (fun y => decide (y.id = v)) := by
              rename_i hxdb
              exact List.mem_filter.2 ⟨hxdb, by simp [hxv]⟩
            rw [hfil] at hxf
            simpa using hxf
          subst hxr
          rw [hFr, hG]
          have hRid : (CreatomateWebhook.updRow p (some x) x).id = v := by
            rw [updRow_id]
            exact hrid
          simp only [hRid, if_pos rfl]
          exact updRow_idem p x x
        · have hFx : F x = x := by
            rw [hF]
            simp [hxv]
          rw [hFx, hG]
          simp [hxv]
    _ = CreatomateWebhook.POST db p := by rw [h1st]

/-- Witness for C5: delivering the concrete completion payload twice to
the one-row table equals delivering it once. -/
theorem claim5_witness :
    CreatomateWebhook.POST (CreatomateWebhook.POST [vid2] pay2).1 pay2 =
      CreatomateWebhook.POST [vid2] pay2 :=
  claim5_idempotent [vid2] pay2 "V1" vid2 (by decide) (by decide) (by rfl)
    (by decide) (by rfl)

/-- Claim C1 (amended): the poller path never writes the table, and the
webhook path sets a correlated record's status purely from the payload's
status field — `succeeded ↦ completed`, `failed ↦ failed`, anything else
`↦ pending` — regardless of the record's prior status.  Hence a pending
record only moves to `completed`/`failed` or stays `pending`, but a
terminal record can equally be moved out of its terminal state by a later
delivery. -/
theorem claim1_amended (db : List Video) (p : WebhookPayload) (v vidq : String)
    (ps : PollerState)
    (h1 : truthyS p.id = true) (h2 : truthyS p.status = true)
    (h3 : CreatomateWebhook.videoIdOf (CreatomateWebhook.parsedMetadata p.metadata) = some v)
    (h4 : v ≠ "") :
    (∀ x ∈ (CreatomateWebhook.POST db p).1, x.id = v →
        x.status = mapStatus (p.status.getD "")) ∧
      (∀ x ∈ (CreatomateWebhook.POST db p).1, x.id ≠ v → x ∈ db) ∧
      (∀ s, mapStatus s = VStatus.pending ∨ mapStatus s = VStatus.completed ∨
        mapStatus s = VStatus.failed) ∧
      (UseVideoStatus.tick db vidq ps).1 = db := by
  have hP := POST_correlated db p v h1 h2 h3 h4
  refine ⟨?_, ?_, ?_, ?_⟩
  · intro x hx hxid
    have hx' : x ∈ db.map (fun y : Video =>
        if y.id = v then CreatomateWebhook.updRow p (selectSingle db v) y else y) := by
      rw [hP] at hx
      exact hx
    rcases List.mem_map.1 hx' with ⟨y, _, rfl⟩
    by_cases hyv : y.id = v
    · rw [if_pos hyv]
      exact updRow_status_eq p (selectSingle db v) y
    · rw [if_neg hyv] at hxid
      exact absurd hxid hyv
  · intro x hx hxid
    have hx' : x ∈ db.map (fun y : Video =>
        if y.id = v then CreatomateWebhook.updRow p (selectSingle db v) y else y) := by
      rw [hP] at hx
      exact hx
    rcases List.mem_map.1 hx' with ⟨y, hy, rfl⟩
    by_cases hyv : y.id = v
    · rw [if_pos hyv, updRow_id] at hxid
      exact absurd hyv hxid
    · rw [if_neg hyv]
      exact hy
  · intro s
    by_cases hs1 : s = "succeeded"
    · right
      left
      simp [mapStatus, hs1]
    · by_cases hs2 : s = "failed"
      · right
        right
        simp [mapStatus, hs1, hs2]
      · left
        simp [mapStatus, hs1, hs2]
  · by_cases hq : vidq = ""
    · simp [UseVideoStatus.tick, hq]
    · cases hsel : selectSingle db vidq <;> simp [UseVideoStatus.tick, hq, hsel]

/-- Witness for the amended C1 at the concrete terminal-state record and
non-terminal webhook delivery. -/
theorem claim1_witness :
    (∀ x ∈ (CreatomateWebhook.POST [vid1] pay1).1, x.id = "V1" →
        x.status = mapStatus (pay1.status.getD "")) ∧
      (∀ x ∈ (CreatomateWebhook.POST [vid1] pay1).1, x.id ≠ "V1" → x ∈ [vid1]) ∧
      (∀ s, mapStatus s = VStatus.pending ∨ mapStatus s = VStatus.completed ∨
        mapStatus s = VStatus.failed) ∧
      (UseVideoStatus.tick [vid1] "V1" ⟨none, VStatus.pending⟩).1 = [vid1] :=
  claim1_amended [vid1] pay1 "V1" "V1" ⟨none, VStatus.pending⟩
    (by decide) (by decide) (by rfl) (by decide)

/-- Lookup of a different key is unchanged by the in-place branch of
`setKey`. -/
theorem find_key_map_replace_ne (k q : String) (v : MVal) (m : Meta) (h : k ≠ q) :
    (m.map (fun e => if e.1 = q then (q, v) else e)).find? (fun e => decide (e.1 = k)) =
      m.find? (fun e => decide (e.1 = k)) := by
  induction m with
  | nil => rfl
  | cons a t ih =>
    by_cases ha : a.1 = q
    · simp only [List.map_cons, if_pos ha]
      rw [List.find?_cons_of_neg _ (by simp [Ne.symm h]),
        List.find?_cons_of_neg _ (by simp [ha, Ne.symm h])]
      exact ih
    · by_cases hk2 : a.1 = k
      · simp only [List.map_cons, if_neg ha]
        rw [List.find?_cons_of_pos _ (by simp [hk2]),
          List.find?_cons_of_pos _ (by simp [hk2])]
      · simp only [List.map_cons, if_neg ha]
        rw [List.find?_cons_of_neg _ (by simp [hk2]),
          List.find?_cons_of_neg _ (by simp [hk2])]
        exact ih

/-- Lookup of a different key is unchanged by the append branch of
`setKey`. -/
theorem find_key_append_ne (k q : String) (v : MVal) (m : Meta) (h : k ≠ q) :
    (m ++ [(q, v)]).find? (fun e => decide (e.1 = k)) =
      m.find? (fun e => decide (e.1 = k)) := by
  induction m with
  | nil =>
    simp only [List.nil_append]
    rw [List.find?_cons_of_neg _ (by simp [Ne.symm h])]
  | cons a t ih =>
    by_cases hk2 : a.1 = k
    · simp only [List.cons_append]
      rw [List.find?_cons_of_pos _ (by simp [hk2]),
        List.find?_cons_of_pos _ (by simp [hk2])]
    · simp only [List.cons_append]
      rw [List.find?_cons_of_neg _ (by simp [hk2]),
        List.find?_cons_of_neg _ (by simp [hk2])]
      exact ih

/-- `setKey q` does not change the lookup of a different key `k`. -/
theorem lookupMeta_setKey_ne (k q : String) (v : MVal) (m : Meta) (h : k ≠ q) :
    lookupMeta k (setKey q v m) = lookupMeta k m := by
  unfold lookupMeta setKey
  by_cases hq : hasKey q m = true
  · rw [if_pos hq, find_key_map_replace_ne k q v m h]
  · rw [if_neg hq, find_key_append_ne k q v m h]

/-- The webhook meta merge does not change the lookup of any key other
than the three merged fields. -/
theorem lookupMeta_mergeMeta_ne (k : String) (m : Meta) (i : String)
    (url : Option String) (st : String)
    (hk1 : k ≠ "creatomate_id") (hk2 : k ≠ "render_url")
    (hk3 : k ≠ "last_webhook_status") :
    lookupMeta k (CreatomateWebhook.mergeMeta m i url st) = lookupMeta k m := by
  cases url with
  | none =>
    rw [show CreatomateWebhook.mergeMeta m i none st =
        setKey "last_webhook_status" (MVal.str st)
          (removeKey "render_url"
            (setKey "creatomate_id" (MVal.str i) m)) from rfl]
    rw [lookupMeta_setKey_ne _ _ _ _ hk3, lookupMeta_removeKey_ne _ _ _ hk2,
      lookupMeta_setKey_ne _ _ _ _ hk1]
  | some u =>
    rw [show CreatomateWebhook.mergeMeta m i (some u) st =
        setKey "last_webhook_status" (MVal.str st)
          (setKey "render_url" (MVal.str u)
            (setKey "creatomate_id" (MVal.str i) m)) from rfl]
    rw [lookupMeta_setKey_ne _ _ _ _ hk3, lookupMeta_setKey_ne _ _ _ _ hk2,
      lookupMeta_setKey_ne _ _ _ _ hk1]

/-- The webhook meta merge keeps every already present key other than
`render_url` (which an url-less payload deletes). -/
theorem hasKey_mergeMeta_mono_ne (k : String) (m : Meta) (i : String)
    (url : Option String) (st : String) (hkr : k ≠ "render_url")
    (hh : hasKey k m = true) :
    hasKey k (CreatomateWebhook.mergeMeta m i url st) = true := by
  cases url with
  | none =>
    show hasKey k (setKey "last_webhook_status" (MVal.str st)
      (removeKey "render_url" (setKey "creatomate_id" (MVal.str i) m))) = true
    apply hasKey_setKey_mono
    rw [hasKey_removeKey_ne _ _ _ hkr]
    exact hasKey_setKey_mono _ _ _ _ hh
  | some u =>
    exact hasKey_setKey_mono _ _ _ _
      (hasKey_setKey_mono _ _ _ _ (hasKey_setKey_mono _ _ _ _ hh))

/-- When the payload carries a url, the merge keeps every prior key. -/
theorem hasKey_mergeMeta_mono_url (k : String) (m : Meta) (i u st : String)
    (hh : hasKey k m = true) :
    hasKey k (CreatomateWebhook.mergeMeta m i (some u) st) = true :=
  hasKey_setKey_mono _ _ _ _
    (hasKey_setKey_mono _ _ _ _ (hasKey_setKey_mono _ _ _ _ hh))

/-- Counterexample to claim C8: the record `vid3` has a prior `render_url`
key in its metadata, and a correlated webhook delivery whose payload
carries no url deletes it — the spread writes `render_url: undefined`,
which serialization drops, so a prior metadata key is discarded. -/
theorem claim8_cex :
    hasKey "render_url" vid3.meta = true ∧
      (CreatomateWebhook.POST [vid3] pay4).1.map
        (fun x => hasKey "render_url" x.meta) = [false] := by
  constructor <;> rfl

/-- Claim C8 (amended): a correlated webhook delivery merges only the
three provider fields into the record's metadata — every key other than
`creatomate_id`, `render_url` and `last_webhook_status` keeps its prior
value and stays present; and when the payload carries a result url, no
prior key at all is discarded.  Only a prior `render_url` under an
url-less payload is deleted. -/
theorem claim8_meta_preserved (db : List Video) (p : WebhookPayload) (v : String)
    (r : Video)
    (h1 : truthyS p.id = true) (h2 : truthyS p.status = true)
    (h3 : CreatomateWebhook.videoIdOf (CreatomateWebhook.parsedMetadata p.metadata) = some v)
    (h4 : v ≠ "") (h5 : selectSingle db v = some r) :
    ∃ q, selectSingle (CreatomateWebhook.POST db p).1 v = some q ∧
      (∀ k, k ≠ "render_url" → hasKey k r.meta = true → hasKey k q.meta = true) ∧
      (∀ u, p.url = some u →
        ∀ k, hasKey k r.meta = true → hasKey k q.meta = true) ∧
      (∀ k, k ≠ "creatomate_id" → k ≠ "render_url" → k ≠ "last_webhook_status" →
        lookupMeta k q.meta = lookupMeta k r.meta) := by
  have hfil := selectSingle_eq_single db v r h5
  have hrid : r.id = v := by
    have hr : r ∈ db.filter (fun x => decide (x.id = v)) := by
      rw [hfil]
      exact List.mem_singleton_self r
    simpa using (List.mem_filter.1 hr).2
  have h1st := POST_correlated db p v h1 h2 h3 h4
  rw [h5] at h1st
  set F : Video → Video :=
    fun x => if x.id = v then CreatomateWebhook.updRow p (some r) x else x with hF
  have hidF : ∀ x : Video, (F x).id = x.id := by
    intro x
    rw [hF]
    by_cases h : x.id = v <;> simp [h, updRow_id]
  have hFr : F r = CreatomateWebhook.updRow p (some r) r := by
    rw [hF]
    simp [hrid]
  have hsel2 : selectSingle (db.map F) v =
      some (CreatomateWebhook.updRow p (some r) r) := by
    have := selectSingle_map db F v hidF r h5
    rw [hFr] at this
    exact this
  refine ⟨CreatomateWebhook.updRow p (some r) r, ?_, ?_, ?_, ?_⟩
  · rw [h1st]
    exact hsel2
  · intro k hkr hk
    show hasKey k (CreatomateWebhook.mergeMeta r.meta (p.id.getD "") p.url
      (p.status.getD "")) = true
    exact hasKey_mergeMeta_mono_ne k r.meta _ p.url _ hkr hk
  · intro u hu k hk
    show hasKey k (CreatomateWebhook.mergeMeta r.meta (p.id.getD "") p.url
      (p.status.getD "")) = true
    rw [hu]
    exact hasKey_mergeMeta_mono_url k r.meta _ u _ hk
  · intro k hk1 hk2 hk3
    show lookupMeta k (CreatomateWebhook.mergeMeta r.meta (p.id.getD "") p.url
        (p.status.getD "")) = lookupMeta k r.meta
    exact lookupMeta_mergeMeta_ne k r.meta _ p.url _ hk1 hk2 hk3

/-- Witness for the amended C8 at the concrete pending record and
completion payload (which carries a result url). -/
theorem claim8_witness :
    ∃ q, selectSingle (CreatomateWebhook.POST [vid2] pay2).1 "V1" = some q ∧
      (∀ k, k ≠ "render_url" → hasKey k vid2.meta = true → hasKey k q.meta = true) ∧
      (∀ u, pay2.url = some u →
        ∀ k, hasKey k vid2.meta = true → hasKey k q.meta = true) ∧
      (∀ k, k ≠ "creatomate_id" → k ≠ "render_url" → k ≠ "last_webhook_status" →
        lookupMeta k q.meta = lookupMeta k vid2.meta) :=
  claim8_meta_preserved [vid2] pay2 "V1" vid2 (by decide) (by decide) (by rfl)
    (by decide) (by rfl)

/-- A string body starting with the closing quote parses to the empty
content. -/
theorem parseStrBody_quote (rest : List Char) :
    parseStrBody ('"' :: rest) = some ([], rest) := by
  unfold parseStrBody
  rw [if_neg (by decide), if_pos rfl]

/-- A backslash makes the next character literal. -/
theorem parseStrBody_backslash (c : Char) (X : List Char) :
    parseStrBody ('\\' :: c :: X) =
      (parseStrBody X).map (fun p => (c :: p.1, p.2)) := by
  conv_lhs => unfold parseStrBody
  rw [if_pos rfl]

/-- Any other character is consumed literally. -/
theorem parseStrBody_other (c : Char) (X : List Char)
    (h1 : ¬ c = '\\') (h2 : ¬ c = '"') :
    parseStrBody (c :: X) = (parseStrBody X).map (fun p => (c :: p.1, p.2)) := by
  conv_lhs => unfold parseStrBody
  rw [if_neg h1, if_neg h2]

/-- Round trip of the string codec: parsing an escaped string body up to
its closing quote recovers the string and the rest of the input. -/
theorem parseStrBody_escape (s rest : List Char) :
    parseStrBody (escapeChars s ++ '"' :: rest) = some (s, rest) := by
  induction s with
  | nil => exact parseStrBody_quote rest
  | cons c t ih =>
    by_cases h : c = '"' ∨ c = '\\'
    · simp only [escapeChars, if_pos h, List.cons_append]
      rw [parseStrBody_backslash, ih]
      rfl
    · have hc1 : ¬ c = '\\' := fun hh => h (Or.inr hh)
      have hc2 : ¬ c = '"' := fun hh => h (Or.inl hh)
      simp only [escapeChars, if_neg h, List.cons_append]
      rw [parseStrBody_other c _ hc1 hc2, ih]
      rfl

/-- Unfolding step of `parseField` on a quoted input. -/
theorem parseField_quote (X : List Char) : parseField ('"' :: X) =
    match parseStrBody X with
    | none => none
    | some (kk, cs2) => parseAfterKey kk cs2 := rfl

/-- Unfolding step of `parseAfterKey` on a `:"` input. -/
theorem parseAfterKey_colon (kk cs3 : List Char) :
    parseAfterKey kk (':' :: '"' :: cs3) =
      match parseStrBody cs3 with
      | none => none
      | some (vv, cs4) => some (String.mk kk, String.mk vv, cs4) := rfl

/-- Round trip of one encoded field. -/
theorem parseField_encodeField (k v : String) (tail : List Char) :
    parseField (encodeField k v ++ tail) = some (k, v, tail) := by
  have hshape : encodeField k v ++ tail =
      '"' :: (escapeChars k.data ++ '"' ::
        (':' :: '"' :: (escapeChars v.data ++ '"' :: tail))) := by
    show ('"' :: (escapeChars k.data ++ '"' :: ':' :: '"' ::
        (escapeChars v.data ++ ['"']))) ++ tail = _
    simp [List.cons_append, List.append_assoc]
  rw [hshape, parseField_quote, parseStrBody_escape]
  show parseAfterKey k.data (':' :: '"' :: (escapeChars v.data ++ '"' :: tail)) =
    some (k, v, tail)
  rw [parseAfterKey_colon, parseStrBody_escape]

/-- Unfolding step of `parseFieldsAux` with positive fuel. -/
theorem parseFieldsAux_step (n : Nat) (cs : List Char) : parseFieldsAux (n + 1) cs =
    match parseField cs with
    | none => none
    | some (k, v, rest) =>
      match rest with
      | ['}'] => some [(k, v)]
      | ',' :: rest2 => (parseFieldsAux n rest2).map (fun fs => (k, v) :: fs)
      | _ => none := by
  conv_lhs => unfold parseFieldsAux

/-- Round trip of an encoded nonempty field list, given enough fuel. -/
theorem parseFieldsAux_encode : ∀ (fs : JObj) (k v : String) (n : Nat),
    fs.length ≤ n →
    parseFieldsAux (n + 1) (encodeField k v ++ encodeRestChars fs) =
      some ((k, v) :: fs) := by
  intro fs
  induction fs with
  | nil =>
    intro k v n _
    rw [show encodeRestChars [] = ['}'] from rfl, parseFieldsAux_step,
      parseField_encodeField]
    rfl
  | cons p fs2 ih =>
    obtain ⟨k2, v2⟩ := p
    intro k v n hn
    cases n with
    | zero => exact absurd hn (by simp)
    | succ m =>
      have hn2 : fs2.length ≤ m := by simpa using hn
      rw [show encodeRestChars ((k2, v2) :: fs2) =
        ',' :: (encodeField k2 v2 ++ encodeRestChars fs2) from rfl]
      rw [parseFieldsAux_step, parseField_encodeField]
      show (parseFieldsAux (m + 1) (encodeField k2 v2 ++ encodeRestChars fs2)).map
        (fun fs => (k, v) :: fs) = some ((k, v) :: (k2, v2) :: fs2)
      rw [ih k2 v2 m hn2]
      rfl

/-- The encoded field list is at least as long as the field count, so the
parser's length-based fuel suffices. -/
theorem length_encodeRest (fs : JObj) : fs.length ≤ (encodeRestChars fs).length := by
  induction fs with
  | nil => simp [encodeRestChars]
  | cons p fs2 ih =>
    obtain ⟨k, v⟩ := p
    simp only [encodeRestChars, List.length_cons, List.length_append]
    omega

/-- Round trip of the object codec on character lists. -/
theorem parseObjChars_encode (m : JObj) : parseObjChars (encodeObjChars m) = some m := by
  cases m with
  | nil => rfl
  | cons p fs =>
    obtain ⟨k, v⟩ := p
    show parseObjChars ('{' :: (encodeField k v ++ encodeRestChars fs)) = some ((k, v) :: fs)
    have hexp : encodeField k v ++ encodeRestChars fs =
        '"' :: (escapeChars k.data ++ '"' :: ':' :: '"' ::
          (escapeChars v.data ++ ['"']) ++ encodeRestChars fs) := by
      show ('"' :: (escapeChars k.data ++ '"' :: ':' :: '"' ::
          (escapeChars v.data ++ ['"']))) ++ encodeRestChars fs = _
      simp [List.cons_append, List.append_assoc]
    rw [hexp]
    have hstep : parseObjChars ('{' :: '"' :: (escapeChars k.data ++ '"' :: ':' :: '"' ::
        (escapeChars v.data ++ ['"']) ++ encodeRestChars fs)) =
        parseFieldsAux (('"' :: (escapeChars k.data ++ '"' :: ':' :: '"' ::
          (escapeChars v.data ++ ['"']) ++ encodeRestChars fs)).length + 1)
          ('"' :: (escapeChars k.data ++ '"' :: ':' :: '"' ::
            (escapeChars v.data ++ ['"']) ++ encodeRestChars fs)) := rfl
    rw [hstep, ← hexp]
    have hlen : fs.length ≤ (encodeField k v ++ encodeRestChars fs).length := by
      calc fs.length ≤ (encodeRestChars fs).length := length_encodeRest fs
        _ ≤ (encodeField k v).length + (encodeRestChars fs).length := Nat.le_add_left _ _
        _ = (encodeField k v ++ encodeRestChars fs).length := (List.length_append _ _).symm
    exact parseFieldsAux_encode fs k v _ hlen

/-- `JSON.parse` of `JSON.stringify` of a metadata object returns the
object: the builtin round trip, at the model's `String` level. -/
theorem parseObjStr_encodeObj (m : JObj) : parseObjStr (encodeObj m) = some m :=
  parseObjChars_encode m

/-- Claim C7: the webhook receiver behaves identically whether a payload's
metadata arrives as the structured object `m` or as the JSON-encoded
string of `m` — same extracted job id, same record update, same
response. -/
theorem claim7_metadata_encoding (db : List Video) (pid pst purl : Option String)
    (m : JObj) :
    CreatomateWebhook.POST db ⟨pid, pst, purl, MetaField.obj m⟩ =
      CreatomateWebhook.POST db ⟨pid, pst, purl, MetaField.str (encodeObj m)⟩ := by
  have h : CreatomateWebhook.parsedMetadata (MetaField.str (encodeObj m)) =
      CreatomateWebhook.parsedMetadata (MetaField.obj m) :=
    parseObjStr_encodeObj m
  simp only [CreatomateWebhook.POST, h]
  rfl
